import Mathlib

/-!
Verification of the easy-sampler live transition engine against its
specification.  The definitions below are a shallow embedding of the
JavaScript source files src/frontend/src/TransitionML.js and
src/frontend/src/TrackPlayer.jsx (plus the key dispatch in the multi-track
App component).  Machine floats are modelled as rationals; the spectral-flux
computation, which uses 10^(dB/20), is modelled over the reals.
-/

namespace EasySampler

/-! ## Rounding as JavaScript does it

Math.round(x) rounds half-up, i.e. ⌊x + 1/2⌋.  toFixed(2) followed by
parseFloat keeps two decimal digits, modelled by rounding x·100. -/

def jsRound (x : ℚ) : ℤ := ⌊x + 1 / 2⌋

def roundTo2 (x : ℚ) : ℚ := (jsRound (x * 100) : ℚ) / 100

/-! ## TransitionML.js: normalisation ranges and tensor conversions -/

def FEAT_RANGES_rms : ℚ × ℚ := (0, 0.5)

def FEAT_RANGES_flux : ℚ × ℚ := (0, 0.05)

def FEAT_RANGES_bpm : ℚ × ℚ := (60, 200)

def LABEL_RANGES_fadeInMs : ℚ × ℚ := (20, 500)

def LABEL_RANGES_duckRatio : ℚ × ℚ := (0.3, 1)

def LABEL_RANGES_layerLevel : ℚ × ℚ := (0.3, 1)

/-- `normalise(value, [min, max])` from TransitionML.js: min–max normalise and
clamp into [0, 1]. -/
def normalise (value : ℚ) (r : ℚ × ℚ) : ℚ :=
  max 0 (min 1 ((value - r.1) / (r.2 - r.1)))

/-- `denormalise(value, [min, max])` from TransitionML.js. -/
def denormalise (value : ℚ) (r : ℚ × ℚ) : ℚ :=
  r.1 + value * (r.2 - r.1)

structure MLFeatures where
  rms : ℚ
  flux : ℚ
  bpm : ℚ
deriving DecidableEq

structure MLLabels where
  fadeInMs : ℚ
  duckRatio : ℚ
  layerLevel : ℚ
deriving DecidableEq

/-- `featuresToTensor` from TransitionML.js. -/
def featuresToTensor (f : MLFeatures) : Fin 3 → ℚ :=
  ![normalise f.rms FEAT_RANGES_rms,
    normalise f.flux FEAT_RANGES_flux,
    normalise f.bpm FEAT_RANGES_bpm]

/-- `labelsToTensor` from TransitionML.js. -/
def labelsToTensor (l : MLLabels) : Fin 3 → ℚ :=
  ![normalise l.fadeInMs LABEL_RANGES_fadeInMs,
    normalise l.duckRatio LABEL_RANGES_duckRatio,
    normalise l.layerLevel LABEL_RANGES_layerLevel]

/-- `tensorToLabels` from TransitionML.js: denormalise the three network
outputs, rounding fadeInMs to an integer and the two ratios to two decimal
digits. -/
def tensorToLabels (v : Fin 3 → ℚ) : MLLabels :=
  { fadeInMs := (jsRound (denormalise (v 0) LABEL_RANGES_fadeInMs) : ℚ)
    duckRatio := roundTo2 (denormalise (v 1) LABEL_RANGES_duckRatio)
    layerLevel := roundTo2 (denormalise (v 2) LABEL_RANGES_layerLevel) }

/-! ## TransitionML.js: the stateful model object

The TensorFlow network itself is external to the engine; its trained forward
pass is modelled as an oracle `net` mapping features to the three normalized
(sigmoid, hence [0,1]-valued) outputs.  Everything else — the training-data
log, the readiness flag and the guards of each method — is translated from
the source. -/

def MIN_SAMPLES : ℕ := 5

structure TrainingExample where
  features : MLFeatures
  labels : MLLabels
deriving DecidableEq

structure MLState where
  trainingData : List TrainingExample
  isReady : Bool
  hasModel : Bool
deriving DecidableEq

/-- `TransitionML.train`: an early return when fewer than MIN_SAMPLES examples
are stored; otherwise fit (building the model if needed) and mark ready. -/
def train (s : MLState) : MLState :=
  if s.trainingData.length < MIN_SAMPLES then s
  else { s with hasModel := true, isReady := true }

/-- The `TransitionML` constructor: data loaded from persistence, not ready,
no model; kicks off training when enough persisted examples exist. -/
def construct (loaded : List TrainingExample) : MLState :=
  let s : MLState := ⟨loaded, false, false⟩
  if MIN_SAMPLES ≤ loaded.length then train s else s

/-- `TransitionML.addSample`: push the example onto the log unchanged. -/
def addSample (s : MLState) (features : MLFeatures) (labels : MLLabels) : MLState :=
  { s with trainingData := s.trainingData ++ [⟨features, labels⟩] }

/-- `TransitionML.clearData`. -/
def clearData (_s : MLState) : MLState := ⟨[], false, false⟩

/-- `TransitionML.predict`: null unless both `isReady` and a model exist,
else the denormalised network output. -/
def predict (net : MLFeatures → Fin 3 → ℚ) (s : MLState) (f : MLFeatures) :
    Option MLLabels :=
  if s.isReady && s.hasModel then some (tensorToLabels (net f)) else none

inductive MLOp where
  | addSample (features : MLFeatures) (labels : MLLabels)
  | train
  | clearData
deriving DecidableEq

def mlStep (op : MLOp) (s : MLState) : MLState :=
  match op with
  | .addSample f l => addSample s f l
  | .train => train s
  | .clearData => clearData s

/-- Any state reachable from a constructor call by a sequence of mutating
operations. -/
def mlRun (loaded : List TrainingExample) (ops : List MLOp) : MLState :=
  ops.foldl (fun s op => mlStep op s) (construct loaded)

/-- Readiness invariant of the model object: ready implies at least
MIN_SAMPLES stored examples. -/
def MLInvariant (s : MLState) : Prop :=
  s.isReady = true → MIN_SAMPLES ≤ s.trainingData.length

/-! ## TrackPlayer.jsx: heuristic selector, beat snapping, fade machinery -/

inductive Curve where
  | linear
  | equalPower
deriving DecidableEq

structure TransParams where
  fadeInMs : ℚ
  duckRatio : ℚ
  layerLevel : ℚ
  curve : Curve
deriving DecidableEq

def PERCUSSIVE_FLUX_THRESHOLD : ℚ := 0.008

def HIGH_RMS_THRESHOLD_B : ℚ := 0.15

def LOUD_RMS_THRESHOLD_B : ℚ := 0.2

def DUCK_RATIO_LOUD : ℚ := 0.55

def DUCK_RATIO_NORMAL : ℚ := 0.75

def LAYER_LEVEL_CAPPED : ℚ := 0.7

def FEATURE_PEEK_MS : ℚ := 200

def END_MARKER_BEAT_SNAP_THRESHOLD_S : ℚ := 1

/-- `pickLayerParams` from TrackPlayer.jsx: the heuristic parameter
selector. -/
def pickLayerParams (rms flux : ℚ) : TransParams :=
  { fadeInMs := if PERCUSSIVE_FLUX_THRESHOLD < flux then 40 else 200
    duckRatio := if HIGH_RMS_THRESHOLD_B < rms then DUCK_RATIO_LOUD else DUCK_RATIO_NORMAL
    layerLevel := if LOUD_RMS_THRESHOLD_B < rms then LAYER_LEVEL_CAPPED else 1
    curve := if PERCUSSIVE_FLUX_THRESHOLD < flux then Curve.linear else Curve.equalPower }

/-- `snapToBeat` from TrackPlayer.jsx.  A null bpm (and, through JS
falsiness, a zero bpm) leaves the time unchanged. -/
def snapToBeat (bpm : Option ℚ) (offset time : ℚ) : ℚ :=
  match bpm with
  | none => time
  | some b =>
    if b = 0 then time
    else
      offset + (jsRound ((time - offset) / (60 / b)) : ℚ) * (60 / b)

/-- The end-marker time rule: snap only when the snapped time is within
END_MARKER_BEAT_SNAP_THRESHOLD_S of the raw time, else keep the raw time. -/
def snapOrRaw (bpm : Option ℚ) (offset rawTime : ℚ) : ℚ :=
  if |snapToBeat bpm offset rawTime - rawTime| ≤ END_MARKER_BEAT_SNAP_THRESHOLD_S
  then snapToBeat bpm offset rawTime else rawTime

/-- `triggerLayer` step 3: prefer the model prediction, fall back to the
heuristics; when the prediction is used, curve is re-derived from the
predicted fadeInMs. -/
def triggerLayerSelect (mlPred : Option MLLabels) (rms flux : ℚ) : TransParams :=
  match mlPred with
  | some p =>
    { fadeInMs := p.fadeInMs, duckRatio := p.duckRatio, layerLevel := p.layerLevel
      curve := if p.fadeInMs < 100 then Curve.linear else Curve.equalPower }
  | none => pickLayerParams rms flux

/-- The gain-envelope schedule built by `triggerLayer` step 4 (and by the
re-loop handler): fade duration in seconds, the step count of the
equal-power curve array, the curve shape and the target level. -/
structure FadeSpec where
  fadeSec : ℚ
  steps : ℕ
  curve : Curve
  layerLevel : ℚ
deriving DecidableEq

def fadeSpecOf (p : TransParams) : FadeSpec :=
  { fadeSec := p.fadeInMs / 1000
    steps := max 2 (jsRound (p.fadeInMs / 1000 * 100)).toNat
    curve := p.curve
    layerLevel := p.layerLevel }

/-- What one `triggerLayer` invocation schedules after the peek window:
the selected parameters, the fade envelope, and the cross-track duck
broadcast (step 5). -/
structure LayerEffect where
  params : TransParams
  fade : FadeSpec
  duckNotified : Bool
deriving DecidableEq

def triggerLayerEffect (mlPred : Option MLLabels) (rms flux : ℚ) : LayerEffect :=
  { params := triggerLayerSelect mlPred rms flux
    fade := fadeSpecOf (triggerLayerSelect mlPred rms flux)
    duckNotified := true }

/-- The declared ranges of a Transition Parameters record (spec §3). -/
def paramsInRange (p : TransParams) : Prop :=
  20 ≤ p.fadeInMs ∧ p.fadeInMs ≤ 500 ∧
  0.3 ≤ p.duckRatio ∧ p.duckRatio ≤ 1 ∧
  0.3 ≤ p.layerLevel ∧ p.layerLevel ≤ 1 ∧
  (p.curve = Curve.linear ∨ p.curve = Curve.equalPower)

/-! ## TrackPlayer.jsx: per-clip marker store, active loop and key handler

A Marker is a (start, end-or-null) range.  The clip state gathers the
mutable refs of the component: the marker map, the active loop, the cached
pointer interaction, the beat grid, playback and the automation gain (its
instantaneous value plus the list of still-scheduled automation events,
which `cancelScheduledValues` empties). -/

structure Marker where
  start : ℚ
  end_ : Option ℚ
deriving DecidableEq

inductive GainEvent where
  | setValue (v : ℚ)
  | linearRamp (target : ℚ) (dur : ℚ)
  | valueCurve (spec : FadeSpec)
deriving DecidableEq

structure ClipState where
  isLoaded : Bool
  isPlaying : Bool
  currentTime : ℚ
  markers : Nat → Option Marker
  activeLoop : Option Nat
  lastInteractionTime : ℚ
  lastInteractionTimestamp : ℚ
  bpm : Option ℚ
  beatOffset : ℚ
  gainValue : ℚ
  gainSchedule : List GainEvent
  hasAutoGain : Bool

/-- The shiftKey branch of `handleKey`: `ws.stop()` (halt, cursor to 0),
clear the active loop, and — when the automation node exists — cancel the
scheduled automation and set the gain to 1. -/
def stopBranch (s : ClipState) : ClipState :=
  if s.hasAutoGain then
    { s with
      isPlaying := false, currentTime := 0, activeLoop := none,
      gainSchedule := [], gainValue := 1 }
  else
    { s with isPlaying := false, currentTime := 0, activeLoop := none }

/-- The new-start placement shared by both protocols: clear the active loop
if it referenced this key, then overwrite the marker with a fresh start and
a null end. -/
def placeStart (s : ClipState) (key : Nat) (t : ℚ) : ClipState :=
  { s with
    activeLoop := if s.activeLoop = some key then none else s.activeLoop
    markers := Function.update s.markers key (some ⟨t, none⟩) }

/-- The marker-placement logic shared by the click-then-key and
play-then-key protocols of `handleKey`: with a start set and no end, place
the end at the snap-or-raw candidate time unless it is not after the start
(validation error, state unchanged); otherwise place a new start. -/
def placeAt (s : ClipState) (key : Nat) (rawTime : ℚ) : ClipState :=
  match s.markers key with
  | some m =>
    match m.end_ with
    | none =>
      if snapOrRaw s.bpm s.beatOffset rawTime ≤ m.start then s
      else
        { s with markers := Function.update s.markers key (some ⟨m.start, some (snapOrRaw s.bpm s.beatOffset rawTime)⟩) }
    | some _ => placeStart s key (snapToBeat s.bpm s.beatOffset rawTime)
  | none => placeStart s key (snapToBeat s.bpm s.beatOffset rawTime)

/-- The layer-trigger branch of `handleKey`: record the active loop (only
markers with a defined end loop), then `triggerLayer` step 1 — seek to the
marker start, cancel pending automation, mute, play — which aborts when the
automation node is missing. -/
def triggerBranch (s : ClipState) (key : Nat) (m : Marker) : ClipState :=
  if s.hasAutoGain then
    { s with
      activeLoop := if m.end_.isSome then some key else none,
      currentTime := m.start, gainSchedule := [], gainValue := 0, isPlaying := true }
  else
    { s with activeLoop := if m.end_.isSome then some key else none }

/-- Whether the play-then-key protocol applies to this key: no marker yet,
or a marker whose end is still null. -/
def markerIncomplete (s : ClipState) (key : Nat) : Bool :=
  match s.markers key with
  | none => true
  | some m => m.end_.isNone

/-- `handleKey` from TrackPlayer.jsx.  `now` is Date.now() at the key
press; a pointer interaction within the last 1500 ms selects the
click-then-key protocol and consumes the cached click. -/
def handleKey (s : ClipState) (key : Nat) (shiftKey : Bool) (now : ℚ) : ClipState :=
  if s.isLoaded = false then s
  else if shiftKey then stopBranch s
  else if now - s.lastInteractionTime < 1500 then
    placeAt { s with lastInteractionTime := 0, lastInteractionTimestamp := 0 }
      key s.lastInteractionTimestamp
  else if s.isPlaying && markerIncomplete s key then
    placeAt s key s.currentTime
  else
    match s.markers key with
    | some m => triggerBranch s key m
    | none => s

/-- `clearMarker` from TrackPlayer.jsx: remove the marker for one key and,
if it was the active loop, clear the loop. -/
def clearMarker (s : ClipState) (key : Nat) : ClipState :=
  { s with
    activeLoop := if s.activeLoop = some key then none else s.activeLoop
    markers := Function.update s.markers key none }

/-- The stop transport button (`handleStop`): same effect as the shiftKey
branch of `handleKey`. -/
def stopClip (s : ClipState) : ClipState := stopBranch s

/-- `loadFile` / `removeFile`: replacing or removing the clip source clears
markers, the active loop and the beat grid. -/
def reloadClip (s : ClipState) : ClipState :=
  { s with
    isLoaded := false, isPlaying := false, currentTime := 0
    markers := fun _ => none, activeLoop := none
    bpm := none, beatOffset := 0 }

inductive ClipOp where
  | keyPress (key : Nat) (shiftKey : Bool) (now : ℚ)
  | clearMarker (key : Nat)
  | stopButton
  | reload
  | pointerInteraction (now t : ℚ)
  | ready

def clipStep (op : ClipOp) (s : ClipState) : ClipState :=
  match op with
  | .keyPress key sh now => handleKey s key sh now
  | .clearMarker key => clearMarker s key
  | .stopButton => stopClip s
  | .reload => reloadClip s
  | .pointerInteraction now t =>
    { s with lastInteractionTime := now, lastInteractionTimestamp := t }
  | .ready => { s with isLoaded := true }

/-- Active-Loop invariant: a set active loop references an existing marker
with a defined end. -/
def ActiveLoopInv (s : ClipState) : Prop :=
  ∀ k, s.activeLoop = some k →
    ∃ m, s.markers k = some m ∧ m.end_.isSome = true

/-- What one firing of the re-loop transition schedules: a linear mute ramp
over `muteRampSec`, then after `muteDelayMs` a seek to `seekTo` and a fade
back in per `fade`; `duckNotified` records whether the cross-track duck
broadcast is sent. -/
structure ReloopEffect where
  muteRampSec : ℚ
  muteDelayMs : ℚ
  seekTo : ℚ
  fade : FadeSpec
  duckNotified : Bool
deriving DecidableEq

/-- The timeupdate re-loop handler of TrackPlayer.jsx: when the active
loop's marker has a defined end and playback crosses end − 0.05 s (and the
automation node exists), mute over 20 ms, seek back to the start after the
20 ms timeout, and fade back in with parameters from the heuristic
selector applied to the current feature snapshot; no duck broadcast. -/
def reloopHandler (s : ClipState) (t rms flux : ℚ) : Option ReloopEffect :=
  match s.activeLoop with
  | none => none
  | some loopKey =>
    if s.isPlaying then
      match s.markers loopKey with
      | some m =>
        match m.end_ with
        | some e =>
          if s.hasAutoGain then
            if e - 0.05 ≤ t then
              some
                { muteRampSec := 0.02, muteDelayMs := 20, seekTo := m.start
                  fade := fadeSpecOf (pickLayerParams rms flux)
                  duckNotified := false }
            else none
          else none
        | none => none
      | none => none
    else none

/-- The key dispatch of the multi-track App component: each digit key is
routed to exactly one of the three tracks. -/
def appKeyDown (tracks : Fin 3 → ClipState) (i : Fin 3) (key : Nat)
    (shiftKey : Bool) (now : ℚ) : Fin 3 → ClipState :=
  Function.update tracks i (handleKey (tracks i) key shiftKey now)

/-! ## TrackPlayer.jsx: spectral flux in `startFeatureExtraction`

The analyser delivers a dB-valued frequency frame; the tick converts each
bin with 10^(dB/20) and accumulates the positive change against the
retained previous frame, then divides by the bin count.
`startFeatureExtraction` allocates the retained frame as a zeroed
Float32Array (all bins at 0 dB). -/

noncomputable def linearMag (db : ℝ) : ℝ := (10 : ℝ) ^ (db / 20)

/-- One tick's flux from the current and previous dB frames. -/
noncomputable def fluxOf {n : ℕ} (freq prev : Fin n → ℝ) : ℝ :=
  (∑ i, max 0 (linearMag (freq i) - linearMag (prev i))) / n

def zeroFrame (n : ℕ) : Fin n → ℝ := fun _ => 0

/-- The retained previous frame. -/
structure FeatState (n : ℕ) where
  prevFreq : Fin n → ℝ

/-- `startFeatureExtraction`: the retained frame starts as a zeroed dB
array. -/
def startFeatureExtraction (n : ℕ) : FeatState n := ⟨zeroFrame n⟩

/-- One flux tick: compute flux against the retained frame, then retain the
current frame (`prev.set(freqDomain)`). -/
noncomputable def featTick {n : ℕ} (s : FeatState n) (freq : Fin n → ℝ) :
    ℝ × FeatState n :=
  (fluxOf freq s.prevFreq, ⟨freq⟩)

/-! ## Concrete states used to instantiate the theorems -/

def c1Feat : MLFeatures := ⟨0.9, 0.2, 300⟩

def c1Lab : MLLabels := ⟨1000, 2, 0.1⟩

def c2Freq : Fin 1 → ℝ := fun _ => -20

/-- A clip with a 60 BPM beat grid, a start-only marker on key 3 at
10.1 s, and a click cached 100 ms ago at 10.3 s. -/
def c3State : ClipState :=
  { isLoaded := true, isPlaying := false, currentTime := 0
    markers := fun k => if k = 3 then some ⟨10.1, none⟩ else none
    activeLoop := none
    lastInteractionTime := 1000, lastInteractionTimestamp := 10.3
    bpm := some 60, beatOffset := 0
    gainValue := 1, gainSchedule := [], hasAutoGain := true }

/-- A clip with no beat grid, a start-only marker on key 5 at 10 s, and a
fresh click at 15 s. -/
def c3WitState : ClipState :=
  { isLoaded := true, isPlaying := false, currentTime := 0
    markers := fun k => if k = 5 then some ⟨10, none⟩ else none
    activeLoop := none
    lastInteractionTime := 0, lastInteractionTimestamp := 15
    bpm := none, beatOffset := 0
    gainValue := 1, gainSchedule := [], hasAutoGain := true }

/-- A playing clip looping marker 7 = [10 s, 15 s]. -/
def c4State : ClipState :=
  { isLoaded := true, isPlaying := true, currentTime := 14.9
    markers := fun k => if k = 7 then some ⟨10, some 15⟩ else none
    activeLoop := some 7
    lastInteractionTime := 0, lastInteractionTimestamp := 0
    bpm := none, beatOffset := 0
    gainValue := 1, gainSchedule := [], hasAutoGain := true }

/-- A model prediction the trained network could produce. -/
def c4Pred : MLLabels := ⟨40, 0.6, 0.8⟩

def c6Net : MLFeatures → Fin 3 → ℚ := fun _ _ => 0

def c6Feat : MLFeatures := ⟨0.1, 0.001, 120⟩

def c9WitState : ClipState :=
  { isLoaded := true, isPlaying := false, currentTime := 0
    markers := fun _ => none
    activeLoop := none
    lastInteractionTime := 0, lastInteractionTimestamp := 0
    bpm := none, beatOffset := 0
    gainValue := 1, gainSchedule := [], hasAutoGain := true }

/-- A loaded, playing clip with pending automation and an active loop. -/
def c10State : ClipState :=
  { isLoaded := true, isPlaying := true, currentTime := 12
    markers := fun k => if k = 2 then some ⟨3, some 6⟩ else none
    activeLoop := some 2
    lastInteractionTime := 0, lastInteractionTimestamp := 0
    bpm := some 120, beatOffset := 0.1
    gainValue := 0.6, gainSchedule := [GainEvent.linearRamp 1 0.4]
    hasAutoGain := true }

/-! ## Helper lemmas -/

lemma jsRound_ge {a : ℤ} {x : ℚ} (h : (a : ℚ) ≤ x) : a ≤ jsRound x := by
  unfold jsRound
  rw [Int.le_floor]
  linarith

lemma jsRound_le {b : ℤ} {x : ℚ} (h : x ≤ b) : jsRound x ≤ b := by
  unfold jsRound
  have hlt : ⌊x + 1 / 2⌋ < b + 1 := by
    rw [Int.floor_lt]
    push_cast
    linarith
  omega

lemma normalise_mem (v : ℚ) (r : ℚ × ℚ) :
    0 ≤ normalise v r ∧ normalise v r ≤ 1 := by
  unfold normalise
  exact ⟨le_max_left 0 _, max_le (by norm_num) (min_le_left 1 _)⟩

lemma denormalise_mem {v mn mx : ℚ} (hmn : mn ≤ mx) (h0 : 0 ≤ v) (h1 : v ≤ 1) :
    mn ≤ denormalise v (mn, mx) ∧ denormalise v (mn, mx) ≤ mx := by
  unfold denormalise
  constructor
  · have : 0 ≤ v * (mx - mn) := mul_nonneg h0 (by linarith)
    simpa using by linarith
  · have : v * (mx - mn) ≤ 1 * (mx - mn) :=
      mul_le_mul_of_nonneg_right h1 (by linarith)
    simpa using by linarith

lemma roundTo2_mem {x lo hi : ℚ} (hlo : lo * 100 = (⌈lo * 100⌉ : ℚ))
    (hhi : hi * 100 = (⌊hi * 100⌋ : ℚ)) (h0 : lo ≤ x) (h1 : x ≤ hi) :
    lo ≤ roundTo2 x ∧ roundTo2 x ≤ hi := by
  unfold roundTo2
  have hge : ⌈lo * 100⌉ ≤ jsRound (x * 100) := by
    refine jsRound_ge ?_
    rw [← hlo]
    nlinarith
  have hle : jsRound (x * 100) ≤ ⌊hi * 100⌋ := by
    refine jsRound_le ?_
    rw [← hhi]
    nlinarith
  constructor
  · rw [le_div_iff₀ (by norm_num : (0 : ℚ) < 100)]
    have hc : (⌈lo * 100⌉ : ℚ) ≤ (jsRound (x * 100) : ℚ) := by exact_mod_cast hge
    linarith
  · rw [div_le_iff₀ (by norm_num : (0 : ℚ) < 100)]
    have hc : (jsRound (x * 100) : ℚ) ≤ (⌊hi * 100⌋ : ℚ) := by exact_mod_cast hle
    linarith

/-! ## The claims -/

/-- C5: the heuristic Parameter Selector computes exactly the rule table of
spec §4.4 — percussive iff flux > 0.008, fadeInMs 40/200, duckRatio
0.55/0.75 by rms > 0.15, layerLevel 0.70/1.00 by rms > 0.20, curve
linear/equalPower by percussiveness — and on {rms 0.25, flux 0.003} yields
{fadeInMs 200, duckRatio 0.55, layerLevel 0.70, curve equalPower}. -/
theorem C5_heuristic_selector :
    (∀ rms flux : ℚ, pickLayerParams rms flux =
      { fadeInMs := if 0.008 < flux then 40 else 200
        duckRatio := if 0.15 < rms then 0.55 else 0.75
        layerLevel := if 0.2 < rms then 0.7 else 1
        curve := if 0.008 < flux then Curve.linear else Curve.equalPower }) ∧
    pickLayerParams 0.25 0.003 =
      { fadeInMs := 200, duckRatio := 0.55, layerLevel := 0.7
        curve := Curve.equalPower } := by
  constructor
  · intro rms flux
    rfl
  · simp only [pickLayerParams, PERCUSSIVE_FLUX_THRESHOLD, HIGH_RMS_THRESHOLD_B,
      LOUD_RMS_THRESHOLD_B, DUCK_RATIO_LOUD, DUCK_RATIO_NORMAL, LAYER_LEVEL_CAPPED]
    norm_num

/-- C7: the beat-snap function is
offset + round((t − offset)/beatLen)·beatLen with beatLen = 60/bpm when bpm
is set (and nonzero), and the identity for every input time when bpm is
null. -/
theorem C7_snap_formula :
    (∀ offset t : ℚ, snapToBeat none offset t = t) ∧
    (∀ b offset t : ℚ, b ≠ 0 →
      snapToBeat (some b) offset t =
        offset + (jsRound ((t - offset) / (60 / b)) : ℚ) * (60 / b)) := by
  refine ⟨fun offset t => rfl, fun b offset t hb => ?_⟩
  simp [snapToBeat, hb]

/-- C7 witness at bpm 120, offset 0, t = 10.2. -/
theorem C7_witness :
    snapToBeat (some 120) 0 10.2 =
      0 + (jsRound ((10.2 - 0) / (60 / 120)) : ℚ) * (60 / 120) :=
  C7_snap_formula.2 120 0 10.2 (by norm_num)

/-- C1 counterexample: the append operation stores out-of-range values
unclamped.  Appending features {rms 0.9, flux 0.2, bpm 300} and labels
{fadeInMs 1000, duckRatio 2, layerLevel 0.1} to an empty log stores them
verbatim, with rms 0.9 outside [0, 0.5] and fadeInMs 1000 outside
[20, 500] — refuting the claim that out-of-range values supplied to the
append operation are clamped into range before being stored. -/
theorem C1_counterexample :
    (addSample (construct []) c1Feat c1Lab).trainingData = [⟨c1Feat, c1Lab⟩] ∧
    ¬ c1Feat.rms ≤ FEAT_RANGES_rms.2 ∧
    ¬ c1Lab.fadeInMs ≤ LABEL_RANGES_fadeInMs.2 := by
  refine ⟨rfl, ?_, ?_⟩ <;>
    norm_num [c1Feat, c1Lab, FEAT_RANGES_rms, LABEL_RANGES_fadeInMs]

/-- C1 amended: the append operation stores every example exactly as
supplied (never rejecting, never clamping), and the normalization ranges
are enforced only when examples are normalised for training or inference,
where every normalised feature and label component is clamped into
[0, 1]. -/
theorem C1_amended_append_raw :
    (∀ s f l, (addSample s f l).trainingData = s.trainingData ++ [⟨f, l⟩]) ∧
    (∀ v r, 0 ≤ normalise v r ∧ normalise v r ≤ 1) ∧
    (∀ f i, 0 ≤ featuresToTensor f i ∧ featuresToTensor f i ≤ 1) ∧
    (∀ l i, 0 ≤ labelsToTensor l i ∧ labelsToTensor l i ≤ 1) := by
  refine ⟨fun s f l => rfl, normalise_mem, ?_, ?_⟩
  · intro f i
    fin_cases i <;> simpa [featuresToTensor] using normalise_mem _ _
  · intro l i
    fin_cases i <;> simpa [labelsToTensor] using normalise_mem _ _

lemma mlInvariant_train {s : MLState} (h : MLInvariant s) : MLInvariant (train s) := by
  unfold train
  split
  · exact h
  · rename_i hlen
    intro _
    show MIN_SAMPLES ≤ s.trainingData.length
    omega

lemma mlInvariant_construct (loaded : List TrainingExample) :
    MLInvariant (construct loaded) := by
  unfold construct
  split
  · exact mlInvariant_train (fun h => by simp at h)
  · intro h
    simp at h

lemma mlInvariant_step (op : MLOp) {s : MLState} (h : MLInvariant s) :
    MLInvariant (mlStep op s) := by
  cases op with
  | addSample f l =>
    intro hr
    have hlen := h hr
    simp only [mlStep, addSample, List.length_append, List.length_cons,
      List.length_nil]
    omega
  | train => exact mlInvariant_train h
  | clearData =>
    intro hr
    simp [mlStep, clearData] at hr

lemma mlInvariant_foldl (ops : List MLOp) {s : MLState} (h : MLInvariant s) :
    MLInvariant (ops.foldl (fun s op => mlStep op s) s) := by
  induction ops generalizing s with
  | nil => exact h
  | cons op rest ih => exact ih (mlInvariant_step op h)

/-- C6: every state of the model reachable from construction by any
sequence of addSample / train / clearData operations satisfies the
readiness invariant (ready implies at least MIN_SAMPLES = 5 stored
examples), and in any such state with fewer than 5 stored examples the
predict operation returns null for every input. -/
theorem C6_model_readiness (loaded : List TrainingExample) (ops : List MLOp)
    (net : MLFeatures → Fin 3 → ℚ) (f : MLFeatures) :
    MLInvariant (mlRun loaded ops) ∧
    ((mlRun loaded ops).trainingData.length < MIN_SAMPLES →
      predict net (mlRun loaded ops) f = none) := by
  have hinv : MLInvariant (mlRun loaded ops) :=
    mlInvariant_foldl ops (mlInvariant_construct loaded)
  refine ⟨hinv, fun hlen => ?_⟩
  unfold predict
  cases hready : (mlRun loaded ops).isReady with
  | false => simp [hready]
  | true => exact absurd (hinv hready) (by omega)

/-- C6 witness: an empty log followed by one train call leaves predict at
null. -/
theorem C6_witness : predict c6Net (mlRun [] [MLOp.train]) c6Feat = none :=
  (C6_model_readiness [] [MLOp.train] c6Net c6Feat).2 (by decide)

lemma pickLayerParams_inRange (rms flux : ℚ) :
    paramsInRange (pickLayerParams rms flux) := by
  unfold paramsInRange pickLayerParams
  by_cases hf : PERCUSSIVE_FLUX_THRESHOLD < flux <;>
    by_cases h15 : HIGH_RMS_THRESHOLD_B < rms <;>
      by_cases h20 : LOUD_RMS_THRESHOLD_B < rms <;>
        simp [hf, h15, h20, DUCK_RATIO_LOUD, DUCK_RATIO_NORMAL,
          LAYER_LEVEL_CAPPED] <;>
        norm_num

lemma tensorToLabels_inRange {v : Fin 3 → ℚ} (hv : ∀ i, 0 ≤ v i ∧ v i ≤ 1) :
    20 ≤ (tensorToLabels v).fadeInMs ∧ (tensorToLabels v).fadeInMs ≤ 500 ∧
    0.3 ≤ (tensorToLabels v).duckRatio ∧ (tensorToLabels v).duckRatio ≤ 1 ∧
    0.3 ≤ (tensorToLabels v).layerLevel ∧ (tensorToLabels v).layerLevel ≤ 1 := by
  obtain ⟨h00, h01⟩ := hv 0
  obtain ⟨h10, h11⟩ := hv 1
  obtain ⟨h20, h21⟩ := hv 2
  have hf : 20 ≤ denormalise (v 0) LABEL_RANGES_fadeInMs ∧
      denormalise (v 0) LABEL_RANGES_fadeInMs ≤ 500 :=
    denormalise_mem (by norm_num) h00 h01
  have hd : 0.3 ≤ denormalise (v 1) LABEL_RANGES_duckRatio ∧
      denormalise (v 1) LABEL_RANGES_duckRatio ≤ 1 :=
    denormalise_mem (by norm_num) h10 h11
  have hl : 0.3 ≤ denormalise (v 2) LABEL_RANGES_layerLevel ∧
      denormalise (v 2) LABEL_RANGES_layerLevel ≤ 1 :=
    denormalise_mem (by norm_num) h20 h21
  refine ⟨?_, ?_, ?_, ?_, ?_, ?_⟩
  · show (20 : ℚ) ≤ (jsRound (denormalise (v 0) LABEL_RANGES_fadeInMs) : ℚ)
    have hz : (20 : ℤ) ≤ jsRound (denormalise (v 0) LABEL_RANGES_fadeInMs) :=
      jsRound_ge (by exact_mod_cast hf.1)
    exact_mod_cast hz
  · show (jsRound (denormalise (v 0) LABEL_RANGES_fadeInMs) : ℚ) ≤ 500
    have hz : jsRound (denormalise (v 0) LABEL_RANGES_fadeInMs) ≤ (500 : ℤ) :=
      jsRound_le (by exact_mod_cast hf.2)
    exact_mod_cast hz
  · exact (roundTo2_mem (by norm_num) (by norm_num) hd.1 hd.2).1
  · exact (roundTo2_mem (by norm_num) (by norm_num) hd.1 hd.2).2
  · exact (roundTo2_mem (by norm_num) (by norm_num) hl.1 hl.2).1
  · exact (roundTo2_mem (by norm_num) (by norm_num) hl.1 hl.2).2

/-- C8: every parameter set produced per trigger event is in range — both
the heuristic selection and the selection built from a model prediction
(whose three network outputs lie in [0,1], the codomain of the sigmoid
output layer) have fadeInMs in [20,500], duckRatio and layerLevel in
[0.3,1], and a curve among linear and equalPower. -/
theorem C8_param_ranges (rms flux : ℚ) (netOut : Fin 3 → ℚ)
    (hnet : ∀ i, 0 ≤ netOut i ∧ netOut i ≤ 1) :
    paramsInRange (triggerLayerSelect none rms flux) ∧
    paramsInRange (triggerLayerSelect (some (tensorToLabels netOut)) rms flux) := by
  constructor
  · exact pickLayerParams_inRange rms flux
  · obtain ⟨hA, hB, hC, hD, hE, hF⟩ := tensorToLabels_inRange hnet
    refine ⟨hA, hB, hC, hD, hE, hF, ?_⟩
    show (if (tensorToLabels netOut).fadeInMs < 100
          then Curve.linear else Curve.equalPower) = Curve.linear ∨
         (if (tensorToLabels netOut).fadeInMs < 100
          then Curve.linear else Curve.equalPower) = Curve.equalPower
    by_cases hcut : (tensorToLabels netOut).fadeInMs < 100
    · exact Or.inl (if_pos hcut)
    · exact Or.inr (if_neg hcut)

/-- C8 witness: constant network output 1/2. -/
theorem C8_witness :
    paramsInRange (triggerLayerSelect none 0.25 0.003) ∧
    paramsInRange
      (triggerLayerSelect (some (tensorToLabels fun _ => 1 / 2)) 0.25 0.003) :=
  C8_param_ranges 0.25 0.003 (fun _ => 1 / 2) (fun _ => by norm_num)

lemma linearMag_zero : linearMag 0 = 1 := by
  unfold linearMag
  rw [zero_div, Real.rpow_zero]

/-- C2 counterexample: the retained previous frame starts as zeroed dB
values, whose linear magnitude is 10^0 = 1, not 0.  On a one-bin frame at
−20 dB the first tick computes flux = max(0, 10^(−1) − 1) = 0, while the
claimed formula mean of max(0, linear_magnitude(bin, t)) gives 1/10 — so
the first-tick flux is not the mean of the current frame's magnitudes. -/
theorem C2_counterexample :
    (featTick (startFeatureExtraction 1) c2Freq).1 = 0 ∧
    (∑ i, max 0 (linearMag (c2Freq i))) / ((1 : ℕ) : ℝ) = 1 / 10 ∧
    (featTick (startFeatureExtraction 1) c2Freq).1 ≠
      (∑ i, max 0 (linearMag (c2Freq i))) / ((1 : ℕ) : ℝ) := by
  have hmag : linearMag (-20) = 1 / 10 := by
    unfold linearMag
    rw [show ((-20 : ℝ) / 20) = ((-1 : ℤ) : ℝ) by norm_num, Real.rpow_intCast]
    norm_num
  have h1 : (featTick (startFeatureExtraction 1) c2Freq).1 = 0 := by
    show (∑ i, max 0 (linearMag (c2Freq i) - linearMag (zeroFrame 1 i))) /
        ((1 : ℕ) : ℝ) = 0
    rw [Fin.sum_univ_one]
    have hterm : max (0 : ℝ) (linearMag (c2Freq 0) - linearMag (zeroFrame 1 0)) = 0 := by
      rw [show c2Freq 0 = (-20 : ℝ) from rfl, show zeroFrame 1 0 = (0 : ℝ) from rfl,
        hmag, linearMag_zero]
      exact max_eq_left (by norm_num)
    rw [hterm]
    simp
  have h2 : (∑ i, max 0 (linearMag (c2Freq i))) / ((1 : ℕ) : ℝ) = 1 / 10 := by
    rw [Fin.sum_univ_one, show c2Freq 0 = (-20 : ℝ) from rfl, hmag,
      max_eq_right (by norm_num : (0 : ℝ) ≤ 1 / 10)]
    norm_num
  refine ⟨h1, h2, ?_⟩
  rw [h1, h2]
  norm_num

/-- C2 amended: after (re)starting analysis the retained previous frame is
the all-zero dB array, whose per-bin linear magnitude is 1, so the first
tick computes flux as the mean over bins of
max(0, linear_magnitude(bin, t) − 1); every tick computes flux as the mean
over bins of max(0, linear_magnitude(bin, t) − linear_magnitude(bin, t−1))
with linear_magnitude = 10^(dB/20), and retains the current frame for the
next tick. -/
theorem C2_flux_formula (n : ℕ) (freq : Fin n → ℝ) :
    (featTick (startFeatureExtraction n) freq).1 =
      (∑ i, max 0 (linearMag (freq i) - 1)) / n ∧
    (∀ s : FeatState n, (featTick s freq).1 =
      (∑ i, max 0 (linearMag (freq i) - linearMag (s.prevFreq i))) / n) ∧
    (∀ s : FeatState n, (featTick s freq).2.prevFreq = freq) := by
  refine ⟨?_, fun s => rfl, fun s => rfl⟩
  show (∑ i, max 0 (linearMag (freq i) - linearMag (zeroFrame n i))) / n =
    (∑ i, max 0 (linearMag (freq i) - 1)) / n
  simp only [zeroFrame, linearMag_zero]

lemma handleKey_shift (s : ClipState) (key : Nat) (now : ℚ)
    (hload : s.isLoaded = true) :
    handleKey s key true now = stopBranch s := by
  unfold handleKey
  rw [hload]
  rfl

lemma handleKey_noShift (s : ClipState) (key : Nat) (now : ℚ)
    (hload : s.isLoaded = true) :
    handleKey s key false now =
      if now - s.lastInteractionTime < 1500 then
        placeAt { s with lastInteractionTime := 0, lastInteractionTimestamp := 0 }
          key s.lastInteractionTimestamp
      else if s.isPlaying && markerIncomplete s key then
        placeAt s key s.currentTime
      else
        match s.markers key with
        | some m => triggerBranch s key m
        | none => s := by
  unfold handleKey
  rw [hload]
  rfl

lemma placeAt_complete (s : ClipState) (key : Nat) (rawTime start : ℚ)
    (hm : s.markers key = some { start := start, end_ := none }) :
    placeAt s key rawTime =
      if snapOrRaw s.bpm s.beatOffset rawTime ≤ start then s
      else
        { s with markers := Function.update s.markers key (some ⟨start, some (snapOrRaw s.bpm s.beatOffset rawTime)⟩) } := by
  unfold placeAt
  rw [hm]

/-- C4 counterexample: the re-loop transition does not run the layer-in
parameter selection.  With the model ready and predicting
{fadeInMs 40, duckRatio 0.6, layerLevel 0.8} on features
{rms 0.25, flux 0.003}, layer-in steps 3–4 schedule a 40 ms linear fade,
but the re-loop transition on the same features schedules the heuristic
200 ms equal-power fade — the two parameter selections disagree whenever
the model overrides the heuristics. -/
theorem C4_counterexample :
    (reloopHandler c4State 14.96 0.25 0.003).map ReloopEffect.fade ≠
      some (triggerLayerEffect (some c4Pred) 0.25 0.003).fade ∧
    triggerLayerSelect (some c4Pred) 0.25 0.003 ≠ pickLayerParams 0.25 0.003 := by
  have hp : pickLayerParams 0.25 0.003 =
      { fadeInMs := 200, duckRatio := 0.55, layerLevel := 0.7
        curve := Curve.equalPower } := by
    simp only [pickLayerParams, PERCUSSIVE_FLUX_THRESHOLD, HIGH_RMS_THRESHOLD_B,
      LOUD_RMS_THRESHOLD_B, DUCK_RATIO_LOUD, DUCK_RATIO_NORMAL, LAYER_LEVEL_CAPPED]
    norm_num
  have hr : reloopHandler c4State 14.96 0.25 0.003 =
      some { muteRampSec := 0.02, muteDelayMs := 20, seekTo := 10
             fade := fadeSpecOf (pickLayerParams 0.25 0.003)
             duckNotified := false } := by
    simp only [reloopHandler, c4State]
    norm_num
  have hfade1 : (fadeSpecOf (pickLayerParams 0.25 0.003)).fadeSec = 1 / 5 := by
    rw [hp]
    show (200 : ℚ) / 1000 = 1 / 5
    norm_num
  have hfade2 : (triggerLayerEffect (some c4Pred) 0.25 0.003).fade.fadeSec = 1 / 25 := by
    show (40 : ℚ) / 1000 = 1 / 25
    norm_num
  constructor
  · rw [hr]
    intro hc
    rw [Option.map_some'] at hc
    have h2 := congrArg FadeSpec.fadeSec (Option.some.inj hc)
    rw [hfade1, hfade2] at h2
    norm_num at h2
  · intro hc
    have h2 := congrArg TransParams.fadeInMs hc
    have h3 := congrArg TransParams.fadeInMs hp
    rw [h3] at h2
    have h4 : (triggerLayerSelect (some c4Pred) 0.25 0.003).fadeInMs = 40 := rfl
    rw [h4] at h2
    norm_num at h2

/-- C4 amended: when an active loop's marker has a defined end and playback
crosses end − 0.05 s, the re-loop transition mutes the clip over 20 ms,
seeks to the marker's start after the 20 ms timeout, re-derives fade
parameters from the current feature snapshot using the heuristic selector
only (the online model's prediction is not consulted), fades back in per
the selected curve — the same fade machinery as a layer-in whose selector
fell back to heuristics — and sends no duck notification to the other
clips. -/
theorem C4_amended_reloop (s : ClipState) (t rms flux : ℚ) (k : Nat)
    (m : Marker) (e : ℚ)
    (hloop : s.activeLoop = some k) (hplay : s.isPlaying = true)
    (hag : s.hasAutoGain = true) (hm : s.markers k = some m)
    (he : m.end_ = some e) (ht : e - 0.05 ≤ t) :
    reloopHandler s t rms flux =
      some { muteRampSec := 0.02, muteDelayMs := 20, seekTo := m.start
             fade := (triggerLayerEffect none rms flux).fade
             duckNotified := false } ∧
    (triggerLayerEffect none rms flux).fade = fadeSpecOf (pickLayerParams rms flux) := by
  refine ⟨?_, rfl⟩
  simp only [reloopHandler, hloop, hplay, hm, he, hag, if_true]
  rw [if_pos ht]
  rfl

/-- C4 witness: the concrete looping clip at t = 14.97 with features
{rms 0.1, flux 0.01}. -/
theorem C4_witness :
    reloopHandler c4State 14.97 0.1 0.01 =
      some { muteRampSec := 0.02, muteDelayMs := 20, seekTo := 10
             fade := (triggerLayerEffect none 0.1 0.01).fade
             duckNotified := false } :=
  (C4_amended_reloop c4State 14.97 0.1 0.01 7 ⟨10, some 15⟩ 15
    rfl rfl rfl rfl rfl (by norm_num)).1

lemma handleKey_click_end (s : ClipState) (key : Nat) (now start : ℚ)
    (hload : s.isLoaded = true)
    (hclick : now - s.lastInteractionTime < 1500)
    (hm : s.markers key = some { start := start, end_ := none }) :
    handleKey s key false now =
      if snapOrRaw s.bpm s.beatOffset s.lastInteractionTimestamp ≤ start then
        { s with lastInteractionTime := 0, lastInteractionTimestamp := 0 }
      else
        { s with
          lastInteractionTime := 0, lastInteractionTimestamp := 0,
          markers := Function.update s.markers key (some ⟨start, some (snapOrRaw s.bpm s.beatOffset s.lastInteractionTimestamp)⟩) } := by
  rw [handleKey_noShift s key now hload, if_pos hclick]
  unfold placeAt
  rw [show ({ s with lastInteractionTime := 0, lastInteractionTimestamp := 0 } : ClipState).markers key = some { start := start, end_ := none } from hm]

lemma handleKey_play_end (s : ClipState) (key : Nat) (now start : ℚ)
    (hload : s.isLoaded = true)
    (hnclick : ¬ now - s.lastInteractionTime < 1500)
    (hplay : s.isPlaying = true)
    (hm : s.markers key = some { start := start, end_ := none }) :
    handleKey s key false now =
      if snapOrRaw s.bpm s.beatOffset s.currentTime ≤ start then s
      else
        { s with markers := Function.update s.markers key (some ⟨start, some (snapOrRaw s.bpm s.beatOffset s.currentTime)⟩) } := by
  rw [handleKey_noShift s key now hload, if_neg hnclick]
  have hmi : markerIncomplete s key = true := by
    unfold markerIncomplete
    rw [hm]
    rfl
  rw [if_pos (show (s.isPlaying && markerIncomplete s key) = true by rw [hplay, hmi]; rfl)]
  unfold placeAt
  rw [hm]

/-- C3 counterexample: with a 60 BPM grid, a marker in START_SET with
start 10.1 s and a cached click at T = 10.3 s, the snapped time is 10 s
(within 1 s of T, so the snap applies), which is not after the start: the
placement is rejected and the marker keeps end = null, although T > start —
refuting the claim that every candidate T > start produces a marker with
end = snap-or-raw(T). -/
theorem C3_counterexample :
    (10.1 : ℚ) < 10.3 ∧
    (handleKey c3State 3 false 1100).markers 3 =
      some { start := 10.1, end_ := none } ∧
    (handleKey c3State 3 false 1100).markers 3 ≠
      some { start := 10.1, end_ := some (snapOrRaw c3State.bpm c3State.beatOffset 10.3) } := by
  have hsnap : snapOrRaw c3State.bpm c3State.beatOffset 10.3 = 10 := by
    show snapOrRaw (some 60) 0 10.3 = 10
    unfold snapOrRaw snapToBeat END_MARKER_BEAT_SNAP_THRESHOLD_S jsRound
    norm_num [abs_le]
  have hclick : (1100 : ℚ) - c3State.lastInteractionTime < 1500 := by
    show (1100 : ℚ) - 1000 < 1500
    norm_num
  have hkey := handleKey_click_end c3State 3 1100 10.1 rfl hclick rfl
  have hcond : snapOrRaw c3State.bpm c3State.beatOffset c3State.lastInteractionTimestamp ≤ 10.1 := by
    show snapOrRaw c3State.bpm c3State.beatOffset 10.3 ≤ 10.1
    rw [hsnap]
    norm_num
  rw [if_pos hcond] at hkey
  refine ⟨by norm_num, ?_, ?_⟩
  · rw [hkey]
    rfl
  · rw [hkey, hsnap]
    show (some { start := 10.1, end_ := none } : Option Marker) ≠
      some { start := 10.1, end_ := some 10 }
    simp

/-- C3 amended: in START_SET, the end placement (under either protocol)
uses the snap-or-raw candidate time T* = snapOrRaw(T): if T* > start the
marker becomes (start, end = T*); if T* ≤ start — which can happen even for
raw T > start, when snapping pulls T back to or before the start — the
placement is rejected with a validation message and the marker store and
active loop are unchanged, the marker staying in START_SET. -/
theorem C3_amended_end_placement (s : ClipState) (key : Nat)
    (now start rawEnd : ℚ)
    (hload : s.isLoaded = true)
    (hm : s.markers key = some { start := start, end_ := none })
    (hbranch : (now - s.lastInteractionTime < 1500 ∧ rawEnd = s.lastInteractionTimestamp) ∨
      (¬ now - s.lastInteractionTime < 1500 ∧ s.isPlaying = true ∧ rawEnd = s.currentTime)) :
    (start < snapOrRaw s.bpm s.beatOffset rawEnd →
      (handleKey s key false now).markers key =
        some { start := start, end_ := some (snapOrRaw s.bpm s.beatOffset rawEnd) }) ∧
    (snapOrRaw s.bpm s.beatOffset rawEnd ≤ start →
      (handleKey s key false now).markers = s.markers ∧
      (handleKey s key false now).activeLoop = s.activeLoop) := by
  rcases hbranch with ⟨hclick, hraw⟩ | ⟨hnclick, hplay2, hraw⟩
  · subst hraw
    have hkey := handleKey_click_end s key now start hload hclick hm
    constructor
    · intro hlt
      rw [hkey, if_neg (not_le.mpr hlt)]
      show Function.update s.markers key (some ⟨start, some (snapOrRaw s.bpm s.beatOffset s.lastInteractionTimestamp)⟩) key = _
      rw [Function.update_same]
    · intro hle
      rw [hkey, if_pos hle]
      exact ⟨rfl, rfl⟩
  · subst hraw
    have hkey := handleKey_play_end s key now start hload hnclick hplay2 hm
    constructor
    · intro hlt
      rw [hkey, if_neg (not_le.mpr hlt)]
      show Function.update s.markers key (some ⟨start, some (snapOrRaw s.bpm s.beatOffset s.currentTime)⟩) key = _
      rw [Function.update_same]
    · intro hle
      rw [hkey, if_pos hle]
      exact ⟨rfl, rfl⟩

/-- C3 witness: a valid placement — no beat grid, start 10 s, click at
15 s — stores end = 15 s. -/
theorem C3_witness :
    (handleKey c3WitState 5 false 100).markers 5 =
      some { start := 10, end_ := some 15 } := by
  have hsnap : snapOrRaw c3WitState.bpm c3WitState.beatOffset 15 = 15 := by
    show snapOrRaw none 0 15 = 15
    unfold snapOrRaw snapToBeat END_MARKER_BEAT_SNAP_THRESHOLD_S
    norm_num [abs_le]
  have h := (C3_amended_end_placement c3WitState 5 100 10 15 rfl rfl
    (Or.inl ⟨by show (100 : ℚ) - 0 < 1500; norm_num, rfl⟩)).1 (by rw [hsnap]; norm_num)
  rw [hsnap] at h
  exact h

lemma activeLoopInv_placeStart {s : ClipState} (key : Nat) (t : ℚ)
    (h : ActiveLoopInv s) : ActiveLoopInv (placeStart s key t) := by
  intro k hk
  have hk2 : (if s.activeLoop = some key then none else s.activeLoop) = some k := hk
  by_cases hak : s.activeLoop = some key
  · rw [if_pos hak] at hk2
    simp at hk2
  · rw [if_neg hak] at hk2
    obtain ⟨m, hmk, hme⟩ := h k hk2
    have hkk : k ≠ key := fun hEq => hak (hEq ▸ hk2)
    refine ⟨m, ?_, hme⟩
    show Function.update s.markers key (some ⟨t, none⟩) k = some m
    rw [Function.update_noteq hkk]
    exact hmk

lemma activeLoopInv_placeAt {s : ClipState} (key : Nat) (rawTime : ℚ)
    (h : ActiveLoopInv s) : ActiveLoopInv (placeAt s key rawTime) := by
  rcases hm : s.markers key with _ | m
  · have heq : placeAt s key rawTime =
        placeStart s key (snapToBeat s.bpm s.beatOffset rawTime) := by
      unfold placeAt
      rw [hm]
    rw [heq]
    exact activeLoopInv_placeStart key _ h
  · rcases he : m.end_ with _ | e
    · have heq : placeAt s key rawTime =
          if snapOrRaw s.bpm s.beatOffset rawTime ≤ m.start then s
          else
            { s with markers := Function.update s.markers key (some ⟨m.start, some (snapOrRaw s.bpm s.beatOffset rawTime)⟩) } := by
        simp only [placeAt, hm, he]
      rw [heq]
      split
      · exact h
      · intro k hk
        have hk2 : s.activeLoop = some k := hk
        obtain ⟨m2, hmk, hme⟩ := h k hk2
        by_cases hkk : k = key
        · subst hkk
          refine ⟨⟨m.start, some (snapOrRaw s.bpm s.beatOffset rawTime)⟩, ?_, rfl⟩
          show Function.update s.markers k (some ⟨m.start, some (snapOrRaw s.bpm s.beatOffset rawTime)⟩) k = _
          rw [Function.update_same]
        · refine ⟨m2, ?_, hme⟩
          show Function.update s.markers key (some ⟨m.start, some (snapOrRaw s.bpm s.beatOffset rawTime)⟩) k = some m2
          rw [Function.update_noteq hkk]
          exact hmk
    · have heq : placeAt s key rawTime =
          placeStart s key (snapToBeat s.bpm s.beatOffset rawTime) := by
        simp only [placeAt, hm, he]
      rw [heq]
      exact activeLoopInv_placeStart key _ h

lemma activeLoopInv_stopBranch (s : ClipState) : ActiveLoopInv (stopBranch s) := by
  intro k hk
  have hal : (stopBranch s).activeLoop = none := by
    unfold stopBranch
    split <;> rfl
  rw [hal] at hk
  simp at hk

lemma activeLoopInv_triggerBranch {s : ClipState} (key : Nat) (m : Marker)
    (hm : s.markers key = some m) (_h : ActiveLoopInv s) :
    ActiveLoopInv (triggerBranch s key m) := by
  intro k hk
  have hmrk : (triggerBranch s key m).markers = s.markers := by
    unfold triggerBranch
    split <;> rfl
  have hal : (triggerBranch s key m).activeLoop =
      (if m.end_.isSome then some key else none) := by
    unfold triggerBranch
    split <;> rfl
  rw [hal] at hk
  rw [hmrk]
  by_cases hend : m.end_.isSome = true
  · rw [if_pos hend] at hk
    injection hk with hkk
    subst hkk
    exact ⟨m, hm, hend⟩
  · rw [if_neg hend] at hk
    simp at hk

lemma activeLoopInv_handleKey {s : ClipState} (key : Nat) (sh : Bool) (now : ℚ)
    (h : ActiveLoopInv s) : ActiveLoopInv (handleKey s key sh now) := by
  unfold handleKey
  split
  · exact h
  split
  · exact activeLoopInv_stopBranch s
  split
  · exact activeLoopInv_placeAt key _ (fun k hk => h k hk)
  split
  · exact activeLoopInv_placeAt key _ h
  split
  · rename_i m hm
    exact activeLoopInv_triggerBranch key m hm h
  · exact h

lemma activeLoopInv_clearMarker {s : ClipState} (key : Nat)
    (h : ActiveLoopInv s) : ActiveLoopInv (clearMarker s key) := by
  intro k hk
  have hk2 : (if s.activeLoop = some key then none else s.activeLoop) = some k := hk
  by_cases hak : s.activeLoop = some key
  · rw [if_pos hak] at hk2
    simp at hk2
  · rw [if_neg hak] at hk2
    obtain ⟨m, hmk, hme⟩ := h k hk2
    have hkk : k ≠ key := fun hEq => hak (hEq ▸ hk2)
    refine ⟨m, ?_, hme⟩
    show Function.update s.markers key none k = some m
    rw [Function.update_noteq hkk]
    exact hmk

/-- C9: the Active-Loop invariant — a set active loop references an
existing marker with a defined end — is preserved by every clip operation:
key handling (layer trigger, new-start placement which clears the loop for
its trigger-id, end placement, stop), per-trigger-id marker removal, the
stop button, clip reload/removal, pointer interaction and load
completion. -/
theorem C9_active_loop_invariant (s : ClipState) (op : ClipOp)
    (h : ActiveLoopInv s) : ActiveLoopInv (clipStep op s) := by
  cases op with
  | keyPress key sh now => exact activeLoopInv_handleKey key sh now h
  | clearMarker key => exact activeLoopInv_clearMarker key h
  | stopButton => exact activeLoopInv_stopBranch s
  | reload =>
    intro k hk
    have hk2 : (none : Option Nat) = some k := hk
    simp at hk2
  | pointerInteraction now t => intro k hk; exact h k hk
  | ready => intro k hk; exact h k hk

/-- C9 witness: the invariant holds after a stop key press on a fresh
clip. -/
theorem C9_witness :
    ActiveLoopInv (clipStep (ClipOp.keyPress 3 true 0) c9WitState) :=
  C9_active_loop_invariant c9WitState (ClipOp.keyPress 3 true 0)
    (fun k hk => by simp [c9WitState] at hk)

/-- C10: the stop signal (shift + trigger key) on a loaded clip with an
automation node halts playback, clears its Active-Loop State, cancels its
scheduled gain automation, sets the automation gain to 1.0, leaves every
marker of the clip unchanged, and leaves every other track's state
untouched. -/
theorem C10_stop_clip (tracks : Fin 3 → ClipState) (i : Fin 3) (key : Nat)
    (now : ℚ)
    (hload : (tracks i).isLoaded = true) (hag : (tracks i).hasAutoGain = true) :
    (appKeyDown tracks i key true now i).isPlaying = false ∧
    (appKeyDown tracks i key true now i).activeLoop = none ∧
    (appKeyDown tracks i key true now i).gainSchedule = [] ∧
    (appKeyDown tracks i key true now i).gainValue = 1 ∧
    (appKeyDown tracks i key true now i).markers = (tracks i).markers ∧
    ∀ j : Fin 3, j ≠ i → appKeyDown tracks i key true now j = tracks j := by
  have hup : appKeyDown tracks i key true now i = handleKey (tracks i) key true now := by
    unfold appKeyDown
    rw [Function.update_same]
  have hsb : handleKey (tracks i) key true now = stopBranch (tracks i) :=
    handleKey_shift (tracks i) key now hload
  have hag2 : stopBranch (tracks i) =
      { tracks i with
        isPlaying := false, currentTime := 0, activeLoop := none,
        gainSchedule := [], gainValue := 1 } := by
    unfold stopBranch
    rw [if_pos hag]
  rw [hup, hsb, hag2]
  refine ⟨rfl, rfl, rfl, rfl, rfl, ?_⟩
  intro j hj
  unfold appKeyDown
  rw [Function.update_noteq hj]

/-- C10 witness: stop on track 0 of three identical loaded clips. -/
theorem C10_witness :
    (appKeyDown (fun _ => c10State) 0 2 true 50 0).isPlaying = false ∧
    (appKeyDown (fun _ => c10State) 0 2 true 50 0).activeLoop = none ∧
    (appKeyDown (fun _ => c10State) 0 2 true 50 0).gainSchedule = [] ∧
    (appKeyDown (fun _ => c10State) 0 2 true 50 0).gainValue = 1 ∧
    (appKeyDown (fun _ => c10State) 0 2 true 50 0).markers = c10State.markers ∧
    ∀ j : Fin 3, j ≠ 0 → appKeyDown (fun _ => c10State) 0 2 true 50 j = c10State :=
  C10_stop_clip (fun _ => c10State) 0 2 50 rfl rfl

end EasySampler
